import Mathlib

/-!
Todo app: the request handlers of `server.js`

A shallow embedding of the Express handlers of `src/server.js`, and of the
start-up check and list filter of the client `src/script.js`.

* The two JSON files are modelled by their parsed content: `List User` for
  `users.json` and `List Task` for `todos.json` (an absent file reads as `[]`).
  Every handler is a function from the store it reads to the response it sends
  and the store it leaves behind. Storage failures (the `catch` branches that
  answer 500 on an I/O error) are outside the model.
* `bcrypt` and `jsonwebtoken` are library code: they are parameters
  (`Bcrypt`, `Jwt`). `Date.now()` is the input `now`, the salt drawn by
  `bcrypt.hash` is the input `salt`.
* Request body fields are JSON values (`JsVal`), so that "missing", "not a
  string" and "not a boolean" are inputs of the model.
* Route parameters arrive already dispatched: `DELETE /todos/completed` is
  registered before `DELETE /todos/:id`, so the latter handler is never run
  with the path segment `completed`; the handlers below are the bodies of the
  routes, applied to the `id` Express hands them.
-/

namespace TodoApp

/-! ## JavaScript values and string helpers -/

/-- A JSON value of a request body, as far as the handlers look at it.
`undefined` stands for an absent field, `num` for a number (the handlers only
test it for truthiness and equality, so integers stand for all of them), `obj`
for any object or array (never inspected by the server; two parsed objects are
never `===`). -/
inductive JsVal where
  | undefined
  | null
  | bool (b : Bool)
  | num (n : Int)
  | str (s : String)
  | obj
  deriving DecidableEq, Repr

/-- JavaScript truthiness (`!v` is `!v.truthy`). -/
def JsVal.truthy : JsVal → Bool
  | .undefined => false
  | .null => false
  | .bool b => b
  | .num n => n != 0
  | .str s => s != ""
  | .obj => true

/-- JavaScript strict equality `===` on JSON values. -/
def JsVal.strictEq : JsVal → JsVal → Bool
  | .undefined, .undefined => true
  | .null, .null => true
  | .bool a, .bool b => a == b
  | .num a, .num b => a == b
  | .str a, .str b => a == b
  | _, _ => false

/-- `typeof v === "string"`. -/
def JsVal.isString : JsVal → Bool
  | .str _ => true
  | _ => false

/-- `typeof v === "boolean"`. -/
def JsVal.isBoolean : JsVal → Bool
  | .bool _ => true
  | _ => false

/-- The characters `String.prototype.trim` strips: ECMAScript WhiteSpace and
LineTerminator code points. -/
def isJsWhitespace (c : Char) : Bool :=
  let n := c.toNat
  n == 0x09 || n == 0x0A || n == 0x0B || n == 0x0C || n == 0x0D || n == 0x20 ||
  n == 0xA0 || n == 0x1680 || (0x2000 ≤ n && n ≤ 0x200A) || n == 0x2028 ||
  n == 0x2029 || n == 0x202F || n == 0x205F || n == 0x3000 || n == 0xFEFF

/-- Trimming on the character list: strip whitespace at both ends. -/
def trimChars (l : List Char) : List Char :=
  (l.dropWhile isJsWhitespace).rdropWhile isJsWhitespace

/-- `String.prototype.trim`. -/
def trim (s : String) : String := ⟨trimChars s.data⟩

/-- Splitting a character list at every occurrence of `sep`
(`"".split(" ")` is `[""]`, `" ".split(" ")` is `["", ""]`). -/
def splitChars (sep : Char) : List Char → List (List Char)
  | [] => [[]]
  | c :: cs =>
    if c = sep then [] :: splitChars sep cs
    else
      match splitChars sep cs with
      | [] => [[c]]
      | w :: ws => (c :: w) :: ws

/-- `s.split(" ")`. -/
def splitSpace (s : String) : List String :=
  (splitChars ' ' s.data).map String.mk

/-! ## Data model -/

/-- A record of `users.json`. `username` is stored as it came in the request
body; `password` is the bcrypt hash. -/
structure User where
  id : String
  username : JsVal
  password : String
  deriving DecidableEq, Repr

/-- A record of `todos.json`. -/
structure Task where
  id : String
  userId : String
  text : String
  completed : Bool
  deriving DecidableEq, Repr

/-- The token payload `{ id, username }`, which is also `req.user` after
`authenticateToken` and the `user` object of the auth responses. -/
structure Claims where
  id : String
  username : JsVal
  deriving DecidableEq, Repr

/-- The `bcrypt` library: `hash data salt` and `compare data hash`. -/
structure Bcrypt where
  hash : String → String → String
  compare : String → String → Bool

/-- The `jsonwebtoken` library with `JWT_SECRET` fixed: `sign payload now` and
`verify token now` (`none` is the `err` case: malformed, bad signature or
expired). -/
structure Jwt where
  sign : Claims → Nat → String
  verify : String → Nat → Option Claims

/-- Response bodies sent by the server. -/
inductive Body where
  | empty
  | message (message : String)
  | todos (todos : List Task)
  | todo (todo : Task)
  | deleted (message : String) (deletedCount : Nat)
  | auth (message : String) (token : String) (user : Claims)
  deriving DecidableEq, Repr

/-- An HTTP response: status code and JSON body. -/
structure Response where
  status : Nat
  body : Body
  deriving DecidableEq, Repr

/-! ## Authentication middleware -/

/-- The token expression `authHeader && authHeader.split(" ")[1]`: `none` is
`undefined`. An empty header is falsy and is itself the value. -/
def extractToken (authHeader : Option String) : Option String :=
  match authHeader with
  | none => none
  | some h => if h = "" then some h else (splitSpace h)[1]?

/-- The middleware `authenticateToken`: either the response it sends, or the
payload it stores in `req.user` before calling `next()`. -/
def authenticateToken (jwt : Jwt) (now : Nat) (authHeader : Option String) :
    Except Response Claims :=
  match extractToken authHeader with
  | none => .error ⟨401, .message "Authentication required"⟩
  | some token =>
    if token = "" then .error ⟨401, .message "Authentication required"⟩
    else
      match jwt.verify token now with
      | none => .error ⟨403, .message "Invalid or expired token"⟩
      | some user => .ok user

/-! ## Auth endpoints -/

/-- The handler of `POST /auth/register`. -/
def register (bc : Bcrypt) (jwt : Jwt) (now : Nat) (salt : String)
    (username password : JsVal) (users : List User) : Response × List User :=
  if !username.truthy || !password.truthy then
    (⟨400, .message "Username and password are required"⟩, users)
  else if users.any (fun user => user.username.strictEq username) then
    (⟨400, .message "Username already exists"⟩, users)
  else
    match password with
    | .str p =>
      let newUser : User :=
        { id := toString now, username := username, password := bc.hash p salt }
      let token := jwt.sign ⟨newUser.id, newUser.username⟩ now
      (⟨201, .auth "User registered successfully" token ⟨newUser.id, newUser.username⟩⟩,
        users ++ [newUser])
    | _ =>
      -- `bcrypt.hash` rejects data that is not a string: the `catch` branch
      (⟨500, .message "Error registering user"⟩, users)

/-- The handler of `POST /auth/login`. -/
def login (bc : Bcrypt) (jwt : Jwt) (now : Nat)
    (username password : JsVal) (users : List User) : Response × List User :=
  if !username.truthy || !password.truthy then
    (⟨400, .message "Username and password are required"⟩, users)
  else
    match users.find? (fun user => user.username.strictEq username) with
    | none => (⟨401, .message "Invalid username or password"⟩, users)
    | some user =>
      match password with
      | .str p =>
        if !bc.compare p user.password then
          (⟨401, .message "Invalid username or password"⟩, users)
        else
          let token := jwt.sign ⟨user.id, user.username⟩ now
          (⟨200, .auth "Login successful" token ⟨user.id, user.username⟩⟩, users)
      | _ =>
        -- `bcrypt.compare` rejects data that is not a string: the `catch` branch
        (⟨500, .message "Error logging in"⟩, users)

/-! ## Todo endpoints -/

/-- The caller owns a task with this id: the predicate of `findIndex` in
`PUT /todos/:id` and, negated, of `filter` in `DELETE /todos/:id`. -/
def owns (user : Claims) (id : String) (todo : Task) : Bool :=
  todo.id == id && todo.userId == user.id

/-- The handler of `GET /todos`. -/
def getTodos (user : Claims) (todos : List Task) : Response × List Task :=
  let userTodos := todos.filter (fun todo => todo.userId == user.id)
  (⟨200, .todos userTodos⟩, todos)

/-- The handler of `POST /todos`. -/
def postTodos (now : Nat) (user : Claims) (text : JsVal) (todos : List Task) :
    Response × List Task :=
  match text with
  | .str s =>
    if s == "" || trim s == "" then
      (⟨400, .message "Invalid todo text"⟩, todos)
    else
      let newTodo : Task :=
        { id := toString now, userId := user.id, text := trim s, completed := false }
      (⟨201, .todo newTodo⟩, todos ++ [newTodo])
  | _ =>
    -- `!text || typeof text !== "string"`
    (⟨400, .message "Invalid todo text"⟩, todos)

/-- The handler of `DELETE /todos/completed`. -/
def deleteCompleted (user : Claims) (todos : List Task) : Response × List Task :=
  let userTodos := todos.filter (fun todo => todo.userId == user.id)
  let completedTodos := userTodos.filter (fun todo => todo.completed)
  let completedCount := completedTodos.length
  if completedCount == 0 then
    (⟨204, .empty⟩, todos)
  else
    let remainingTodos :=
      todos.filter (fun todo => todo.userId != user.id || !todo.completed)
    (⟨200, .deleted ("Deleted " ++ toString completedCount ++ " completed todos.")
        completedCount⟩, remainingTodos)

/-- The field updates of `PUT /todos/:id` on the task found (lines 342-355):
a string `text` replaces the text unless it trims to the empty string, a
boolean `completed` replaces the flag. -/
def applyUpdate (text completed : JsVal) (todo : Task) : Task :=
  let todo1 :=
    match text with
    | .str s =>
      let trimmedText := trim s
      if trimmedText != "" then { todo with text := trimmedText } else todo
    | _ => todo
  match completed with
  | .bool b => { todo1 with completed := b }
  | _ => todo1

/-- The handler of `PUT /todos/:id`. -/
def putTodo (user : Claims) (id : String) (text completed : JsVal)
    (todos : List Task) : Response × List Task :=
  let isTextUpdate := text.isString
  let isCompletedUpdate := completed.isBoolean
  if !isTextUpdate && !isCompletedUpdate then
    (⟨400, .message "Invalid update data: provide valid text or completed status"⟩, todos)
  else
    match todos.findIdx? (owns user id) with
    | none => (⟨404, .message "Todo not found"⟩, todos)
    | some todoIndex =>
      match todos[todoIndex]? with
      | none =>
        -- assigning to a field of `undefined` throws: the `catch` branch
        (⟨500, .message "Error updating todo"⟩, todos)
      | some todo =>
        let updated := applyUpdate text completed todo
        (⟨200, .todo updated⟩, todos.set todoIndex updated)

/-- The handler of `DELETE /todos/:id`. -/
def deleteTodo (user : Claims) (id : String) (todos : List Task) :
    Response × List Task :=
  let initialLength := todos.length
  let todos' := todos.filter (fun todo => !owns user id todo)
  if todos'.length == initialLength then
    (⟨404, .message "Todo not found"⟩, todos)
  else
    (⟨204, .empty⟩, todos')

/-! ## The `/todos*` routes behind the middleware -/

/-- A request to one of the five `/todos*` routes, with the parts of the
request its handler reads. -/
inductive TodoRequest where
  | getTodos
  | postTodos (text : JsVal)
  | deleteCompleted
  | putTodo (id : String) (text completed : JsVal)
  | deleteTodo (id : String)
  deriving DecidableEq, Repr

/-- The route handler proper, run once `req.user` is set. -/
def runHandler (now : Nat) (user : Claims) (req : TodoRequest) (todos : List Task) :
    Response × List Task :=
  match req with
  | .getTodos => getTodos user todos
  | .postTodos text => postTodos now user text todos
  | .deleteCompleted => deleteCompleted user todos
  | .putTodo id text completed => putTodo user id text completed todos
  | .deleteTodo id => deleteTodo user id todos

/-- A `/todos*` route: `authenticateToken` first, the handler only after
`next()`. -/
def handleTodoRequest (jwt : Jwt) (now : Nat) (authHeader : Option String)
    (req : TodoRequest) (todos : List Task) : Response × List Task :=
  match authenticateToken jwt now authHeader with
  | .error res => (res, todos)
  | .ok user => runHandler now user req todos

/-! ## Predicates on the task store -/

/-- Every stored task has a text that is non-empty and equal to its own trim. -/
def textsTrimmed (todos : List Task) : Prop :=
  ∀ t ∈ todos, t.text ≠ "" ∧ trim t.text = t.text

instance (todos : List Task) : Decidable (textsTrimmed todos) :=
  inferInstanceAs (Decidable (∀ t ∈ todos, t.text ≠ "" ∧ trim t.text = t.text))

/-- No two tasks in the store have the same id. -/
def idsUnique (todos : List Task) : Prop :=
  (todos.map (fun todo => todo.id)).Nodup

instance (todos : List Task) : Decidable (idsUnique todos) :=
  inferInstanceAs (Decidable ((todos.map (fun todo : Task => todo.id)).Nodup))

/-! ## Client (`script.js`) -/

/-- The two local-storage entries the client reads; `none` is the `null` that
`localStorage.getItem` returns for a missing key. -/
structure LocalStorage where
  token : Option String
  user : Option String
  deriving DecidableEq, Repr

/-- What the client shows after start-up: the `hidden` class of
`auth-container` and of `todo-container`, the parsed `currentUser`, and whether
`fetchTodos()` was started. -/
structure ClientView where
  authHidden : Bool
  todoHidden : Bool
  currentUser : Option JsVal
  fetchStarted : Bool
  deriving DecidableEq, Repr

/-- The function `showAuthForms`: auth forms visible, task list hidden. -/
def showAuthForms (currentUser : Option JsVal) : ClientView :=
  { authHidden := false, todoHidden := true, currentUser := currentUser,
    fetchStarted := false }

/-- The function `showTodoApp`: auth forms hidden, task list visible, and the
first API call (`fetchTodos`) started. -/
def showTodoApp (currentUser : Option JsVal) : ClientView :=
  { authHidden := true, todoHidden := false, currentUser := currentUser,
    fetchStarted := true }

/-- The function `checkAuthStatus`, called once when the page has loaded
(`currentUser` is still `null`). `jsonParse` is `JSON.parse`, `none` when it
throws. -/
def checkAuthStatus (jsonParse : String → Option JsVal) (localStorage : LocalStorage) :
    ClientView :=
  match localStorage.token, localStorage.user with
  | some token, some userJson =>
    if token != "" && userJson != "" then
      match jsonParse userJson with
      | some user => showTodoApp (some user)
      | none => showAuthForms none
    else showAuthForms none
  | _, _ => showAuthForms none

/-- The list `renderTodos` renders: `allTodos` under `currentFilter`
(the `switch` of lines 242-253). -/
def todosToRender (currentFilter : String) (allTodos : List Task) : List Task :=
  if currentFilter = "active" then allTodos.filter (fun todo => !todo.completed)
  else if currentFilter = "completed" then allTodos.filter (fun todo => todo.completed)
  else allTodos

/-! ## Library stand-ins used to evaluate the handlers on concrete inputs -/

/-- A stand-in for `bcrypt` in evaluations: the hash is the data itself and a
password verifies when it equals the hash, so `compare p (hash p salt)` holds. -/
def plainBcrypt : Bcrypt :=
  { hash := fun data _ => data, compare := fun data hash => data == hash }

/-- A stand-in for `jsonwebtoken` in evaluations: the token is the user id and
verification reads it back. -/
def plainJwt : Jwt :=
  { sign := fun claims _ => claims.id, verify := fun token _ => some ⟨token, .null⟩ }

/-- A stand-in for `JSON.parse` in evaluations: text that starts with an
opening brace parses to an object, anything else throws. -/
def plainJsonParse (text : String) : Option JsVal :=
  match text.data with
  | '\x7b' :: _ => some .obj
  | _ => none

/-! ## Shared lemmas -/

theorem strictEq_str (v : JsVal) (u : String) :
    v.strictEq (.str u) = true ↔ v = .str u := by
  cases v <;> simp [JsVal.strictEq]

theorem any_username_false (users : List User) (u : String)
    (hfresh : ∀ x ∈ users, x.username ≠ .str u) :
    users.any (fun user => user.username.strictEq (.str u)) = false := by
  rw [List.any_eq_false]
  intro x hx hc
  exact hfresh x hx ((strictEq_str _ _).mp hc)

/-- Registration of a fresh, non-empty username with a non-empty password
appends the new record and answers 201. -/
theorem register_fresh (bc : Bcrypt) (jwt : Jwt) (now : Nat) (salt u p : String)
    (users : List User) (hu : u ≠ "") (hp : p ≠ "")
    (hfresh : ∀ x ∈ users, x.username ≠ .str u) :
    register bc jwt now salt (.str u) (.str p) users =
      (⟨201, .auth "User registered successfully"
          (jwt.sign ⟨toString now, .str u⟩ now) ⟨toString now, .str u⟩⟩,
        users ++ [⟨toString now, .str u, bc.hash p salt⟩]) := by
  simp [register, JsVal.truthy, hu, hp, any_username_false users u hfresh]

/-- Registration of a username already stored answers 400 and changes nothing,
whatever the password field holds. -/
theorem register_taken (bc : Bcrypt) (jwt : Jwt) (now : Nat) (salt u : String)
    (password : JsVal) (users : List User)
    (htaken : ∃ x ∈ users, x.username = .str u) :
    (register bc jwt now salt (.str u) password users).1.status = 400 ∧
    (register bc jwt now salt (.str u) password users).2 = users := by
  have hany : users.any (fun user => user.username.strictEq (.str u)) = true := by
    rw [List.any_eq_true]
    obtain ⟨x, hx, hxu⟩ := htaken
    exact ⟨x, hx, (strictEq_str _ _).mpr hxu⟩
  unfold register
  by_cases hreq : (!(JsVal.str u).truthy || !password.truthy) = true
  · simp [hreq]
  · simp [hreq, hany]

/-- Looking up the username just appended to a collection that did not hold it
finds the appended record. -/
theorem find_appended (users : List User) (u : String) (nu : User)
    (hfresh : ∀ x ∈ users, x.username ≠ .str u) (hnu : nu.username = .str u) :
    (users ++ [nu]).find? (fun user => user.username.strictEq (.str u)) = some nu := by
  have hnone : users.find? (fun user => user.username.strictEq (.str u)) = none := by
    rw [List.find?_eq_none]
    intro x hx hc
    exact hfresh x hx ((strictEq_str _ _).mp hc)
  have hs : nu.username.strictEq (.str u) = true := (strictEq_str _ _).mpr hnu
  simp [List.find?_append, hnone, List.find?, hs]

theorem owns_iff (user : Claims) (id : String) (todo : Task) :
    owns user id todo = true ↔ todo.id = id ∧ todo.userId = user.id := by
  simp [owns]

theorem findIdx_owns_none (user : Claims) (id : String) (todos : List Task)
    (h : ∀ t ∈ todos, ¬(t.id = id ∧ t.userId = user.id)) :
    todos.findIdx? (owns user id) = none := by
  rw [List.findIdx?_eq_none_iff]
  intro t ht
  have := h t ht
  rw [← owns_iff] at this
  simpa using this

theorem filter_not_owns_self (user : Claims) (id : String) (todos : List Task)
    (h : ∀ t ∈ todos, ¬(t.id = id ∧ t.userId = user.id)) :
    todos.filter (fun todo => !owns user id todo) = todos := by
  rw [List.filter_eq_self]
  intro t ht
  have := h t ht
  rw [← owns_iff] at this
  simpa using this

theorem putTodo_not_owned (user : Claims) (id : String) (text completed : JsVal)
    (todos : List Task)
    (hvalid : text.isString = true ∨ completed.isBoolean = true)
    (h : ∀ t ∈ todos, ¬(t.id = id ∧ t.userId = user.id)) :
    putTodo user id text completed todos = (⟨404, .message "Todo not found"⟩, todos) := by
  unfold putTodo
  have hv : (!text.isString && !completed.isBoolean) = false := by
    rcases hvalid with h1 | h1 <;> simp [h1]
  simp [hv, findIdx_owns_none user id todos h]

theorem deleteTodo_not_owned (user : Claims) (id : String) (todos : List Task)
    (h : ∀ t ∈ todos, ¬(t.id = id ∧ t.userId = user.id)) :
    deleteTodo user id todos = (⟨404, .message "Todo not found"⟩, todos) := by
  unfold deleteTodo
  simp [filter_not_owns_self user id todos h]

theorem deleteTodo_owned (user : Claims) (id : String) (todos : List Task)
    (h : ∃ t ∈ todos, t.id = id ∧ t.userId = user.id) :
    deleteTodo user id todos =
      (⟨204, .empty⟩, todos.filter (fun todo => !owns user id todo)) := by
  unfold deleteTodo
  have hlt : (todos.filter (fun todo => !owns user id todo)).length < todos.length := by
    rw [List.length_filter_lt_length_iff_exists]
    obtain ⟨t, ht, hown⟩ := h
    rw [← owns_iff] at hown
    exact ⟨t, ht, by simp [hown]⟩
  have hne : ((todos.filter (fun todo => !owns user id todo)).length == todos.length)
      = false := by
    simpa using Nat.ne_of_lt hlt
  simp [hne]

theorem trim_empty : trim "" = "" := by decide

theorem set_same {α : Type} (l : List α) (i : Nat) (a : α) (h : l[i]? = some a) :
    l.set i a = l := by
  apply List.ext_getElem?
  intro n
  rw [List.getElem?_set]
  split
  · next hin =>
    subst hin
    have hlt : i < l.length := by
      by_contra hge
      rw [List.getElem?_eq_none (Nat.le_of_not_lt hge)] at h
      cases h
    simp [hlt, h]
  · rfl

/-- Shape of a successful `PUT /todos/:id`: the first task with the id and the
caller's userId is replaced by its update, which is also the response body. -/
theorem putTodo_owned (user : Claims) (id : String) (text completed : JsVal)
    (todos : List Task)
    (hvalid : text.isString = true ∨ completed.isBoolean = true)
    (h : ∃ t ∈ todos, t.id = id ∧ t.userId = user.id) :
    ∃ (i : Nat) (target : Task),
      todos.findIdx? (owns user id) = some i ∧
      todos[i]? = some target ∧
      (target.id = id ∧ target.userId = user.id) ∧
      putTodo user id text completed todos =
        (⟨200, .todo (applyUpdate text completed target)⟩,
          todos.set i (applyUpdate text completed target)) := by
  have hv : (!text.isString && !completed.isBoolean) = false := by
    rcases hvalid with h1 | h1 <;> simp [h1]
  cases hfind : todos.findIdx? (owns user id) with
  | none =>
    rw [List.findIdx?_eq_none_iff] at hfind
    obtain ⟨t, ht, hown⟩ := h
    rw [← owns_iff] at hown
    rw [hfind t ht] at hown
    exact absurd hown (by decide)
  | some i =>
    obtain ⟨hlt, hp, _⟩ := List.findIdx?_eq_some_iff_getElem.mp hfind
    have hget : todos[i]? = some todos[i] := List.getElem?_eq_getElem hlt
    refine ⟨i, todos[i], rfl, hget, (owns_iff user id _).mp hp, ?_⟩
    unfold putTodo
    simp only [hv, hfind, hget]
    simp

theorem splitChars_no_sep (sep : Char) (l : List Char) (h : sep ∉ l) :
    splitChars sep l = [l] := by
  induction l with
  | nil => rfl
  | cons c cs ih =>
    have hc : c ≠ sep := fun e => h (by simp [e])
    have hcs : sep ∉ cs := fun e => h (by simp [e])
    simp [splitChars, hc, ih hcs]

/-- The header `Bearer <token>` with a token free of spaces carries that token. -/
theorem extractToken_bearer (token : String) (h : ' ' ∉ token.data) :
    extractToken (some ("Bearer " ++ token)) = some token := by
  have hne : ("Bearer " ++ token) ≠ "" := by
    intro e
    have := congrArg String.data e
    simp at this
  have hdata : ("Bearer " ++ token).data =
      'B' :: 'e' :: 'a' :: 'r' :: 'e' :: 'r' :: ' ' :: token.data := by
    simp [String.data_append]
  simp [extractToken, hne, splitSpace, hdata, splitChars, splitChars_no_sep _ _ h]

theorem trimChars_idempotent (l : List Char) : trimChars (trimChars l) = trimChars l := by
  unfold trimChars
  have hhead : List.dropWhile isJsWhitespace
      ((l.dropWhile isJsWhitespace).rdropWhile isJsWhitespace) =
      (l.dropWhile isJsWhitespace).rdropWhile isJsWhitespace := by
    obtain ⟨t, ht⟩ := List.rdropWhile_prefix isJsWhitespace (l.dropWhile isJsWhitespace)
    generalize (l.dropWhile isJsWhitespace).rdropWhile isJsWhitespace = r at ht
    cases r with
    | nil => rfl
    | cons a r' =>
      have h := List.head?_dropWhile_not isJsWhitespace l
      rw [← ht] at h
      have ha : isJsWhitespace a = false := by simpa using h
      simp [List.dropWhile_cons, ha]
  rw [hhead, List.rdropWhile_idempotent]

/-- Trimming a trimmed string changes nothing. -/
theorem trim_idempotent (s : String) : trim (trim s) = trim s := by
  simp [trim, trimChars_idempotent]

/-- The three outcomes of `PUT /todos/:id`. -/
theorem putTodo_cases (user : Claims) (id : String) (text completed : JsVal)
    (todos : List Task) :
    ((text.isString = false ∧ completed.isBoolean = false) ∧
      putTodo user id text completed todos =
        (⟨400, .message "Invalid update data: provide valid text or completed status"⟩,
          todos)) ∨
    putTodo user id text completed todos = (⟨404, .message "Todo not found"⟩, todos) ∨
    ∃ (i : Nat) (target : Task),
      todos.findIdx? (owns user id) = some i ∧
      todos[i]? = some target ∧
      (target.id = id ∧ target.userId = user.id) ∧
      putTodo user id text completed todos =
        (⟨200, .todo (applyUpdate text completed target)⟩,
          todos.set i (applyUpdate text completed target)) := by
  by_cases hinv : text.isString = false ∧ completed.isBoolean = false
  · left
    exact ⟨hinv, by simp [putTodo, hinv.1, hinv.2]⟩
  · have hvalid : text.isString = true ∨ completed.isBoolean = true := by
      by_cases h1 : text.isString = true
      · exact Or.inl h1
      · by_cases h2 : completed.isBoolean = true
        · exact Or.inr h2
        · exact absurd ⟨by simpa using h1, by simpa using h2⟩ hinv
    by_cases hex : ∃ t ∈ todos, t.id = id ∧ t.userId = user.id
    · exact Or.inr (Or.inr (putTodo_owned user id text completed todos hvalid hex))
    · exact Or.inr (Or.inl (putTodo_not_owned user id text completed todos hvalid
        (fun t ht hc => hex ⟨t, ht, hc⟩)))

/-- What `applyUpdate` can do to a task: id and owner stay; the text stays or
becomes the non-empty trim of a string `text`; the flag stays or becomes the
boolean `completed`. -/
theorem applyUpdate_frame (text completed : JsVal) (todo : Task) :
    (applyUpdate text completed todo).id = todo.id ∧
    (applyUpdate text completed todo).userId = todo.userId ∧
    ((applyUpdate text completed todo).text = todo.text ∨
      ∃ s, text = .str s ∧ trim s ≠ "" ∧ (applyUpdate text completed todo).text = trim s) ∧
    ((applyUpdate text completed todo).completed = todo.completed ∨
      completed = .bool (applyUpdate text completed todo).completed) := by
  rcases text with _ | _ | _ | _ | s | _ <;> cases completed <;>
    first
    | (simp [applyUpdate]; done)
    | (by_cases hs : trim s = "" <;> simp [applyUpdate, hs])

theorem textsTrimmed_filter (p : Task → Bool) (todos : List Task)
    (h : textsTrimmed todos) : textsTrimmed (todos.filter p) :=
  fun t ht => h t (List.mem_filter.mp ht).1

theorem textsTrimmed_putTodo (user : Claims) (id : String) (text completed : JsVal)
    (todos : List Task) (h : textsTrimmed todos) :
    textsTrimmed (putTodo user id text completed todos).2 := by
  rcases putTodo_cases user id text completed todos with
    ⟨_, hput⟩ | hput | ⟨i, target, _, hget, _, hput⟩
  · rw [hput]; exact h
  · rw [hput]; exact h
  · rw [hput]
    intro t ht
    rcases List.mem_or_eq_of_mem_set ht with hmem | rfl
    · exact h t hmem
    · have htarget := h target (List.getElem?_mem hget)
      obtain ⟨_, _, htext, _⟩ := applyUpdate_frame text completed target
      rcases htext with heq | ⟨s, _, hs, heq⟩
      · rw [heq]; exact htarget
      · rw [heq]; exact ⟨hs, trim_idempotent s⟩

theorem textsTrimmed_postTodos (now : Nat) (user : Claims) (text : JsVal)
    (todos : List Task) (h : textsTrimmed todos) :
    textsTrimmed (postTodos now user text todos).2 := by
  rcases text with _ | _ | _ | _ | s | _ <;> try exact h
  by_cases hc : (s == "" || trim s == "") = true
  · simpa [postTodos, hc] using h
  · have hs : trim s ≠ "" := by
      intro e
      exact hc (by simp [e])
    simp only [postTodos, hc]
    intro t ht
    rcases List.mem_append.mp ht with hmem | hnew
    · exact h t hmem
    · have : t = ⟨toString now, user.id, trim s, false⟩ := by simpa using hnew
      subst this
      exact ⟨hs, trim_idempotent s⟩

theorem textsTrimmed_runHandler (now : Nat) (user : Claims) (req : TodoRequest)
    (todos : List Task) (h : textsTrimmed todos) :
    textsTrimmed (runHandler now user req todos).2 := by
  cases req with
  | getTodos => exact h
  | postTodos text => exact textsTrimmed_postTodos now user text todos h
  | deleteCompleted =>
    simp only [runHandler, deleteCompleted]
    split
    · exact h
    · exact textsTrimmed_filter _ todos h
  | putTodo id text completed => exact textsTrimmed_putTodo user id text completed todos h
  | deleteTodo id =>
    simp only [runHandler, deleteTodo]
    split
    · exact h
    · exact textsTrimmed_filter _ todos h

/-- A successful `POST /todos` keeps ids distinct when the decimal clock reading
is not yet the id of a stored task. -/
theorem postTodos_idsUnique_of_fresh (now : Nat) (user : Claims) (text : JsVal)
    (todos : List Task) (h : idsUnique todos)
    (hfresh : ∀ t ∈ todos, t.id ≠ toString now) :
    idsUnique (postTodos now user text todos).2 := by
  rcases text with _ | _ | _ | _ | s | _ <;> try exact h
  by_cases hc : (s == "" || trim s == "") = true
  · simpa [postTodos, hc] using h
  · have hpost : (postTodos now user (.str s) todos).2 =
        todos ++ [⟨toString now, user.id, trim s, false⟩] := by
      simp only [postTodos, hc]
      rfl
    rw [hpost]
    unfold idsUnique at h ⊢
    rw [List.map_append, List.nodup_append]
    refine ⟨h, by simp, ?_⟩
    intro a ha hb
    obtain ⟨t, ht, rfl⟩ := List.mem_map.mp ha
    have : t.id = toString now := by simpa using hb
    exact hfresh t ht this

/-- `PUT /todos/:id` with `{completed: true}` on the id of the task just
appended, when no earlier task of the caller has that id: the appended task is
the one updated. -/
theorem putTodo_appended (user : Claims) (created : Task) (todos : List Task)
    (hown : created.userId = user.id)
    (hfresh : ∀ t ∈ todos, ¬(t.id = created.id ∧ t.userId = user.id)) :
    putTodo user created.id .undefined (.bool true) (todos ++ [created]) =
      (⟨200, .todo { created with completed := true }⟩,
        todos ++ [{ created with completed := true }]) := by
  have hnone := findIdx_owns_none user created.id todos hfresh
  have hc : owns user created.id created = true := (owns_iff _ _ _).mpr ⟨rfl, hown⟩
  have hfind : (todos ++ [created]).findIdx? (owns user created.id) =
      some todos.length := by
    simp [List.findIdx?_append, hnone, List.findIdx?_cons, hc]
  unfold putTodo
  simp [JsVal.isString, JsVal.isBoolean, hfind, applyUpdate]

/-- The post, list, complete, list round trip when no stored task of the caller
already has the id that the new task receives: the created task is listed with `completed` false,
and after `PUT` with `{completed: true}` on its id it is listed with
`completed` true, shown under "completed" and not under "active". -/
theorem round_trip_fresh_id (now : Nat) (caller : Claims) (s : String)
    (todos : List Task) (hs : trim s ≠ "")
    (hfresh : ∀ t ∈ todos, ¬(t.id = toString now ∧ t.userId = caller.id)) :
    postTodos now caller (.str s) todos =
      (⟨201, .todo ⟨toString now, caller.id, trim s, false⟩⟩,
        todos ++ [⟨toString now, caller.id, trim s, false⟩]) ∧
    (∃ listed, (getTodos caller (todos ++ [⟨toString now, caller.id, trim s, false⟩])).1 =
        ⟨200, .todos listed⟩ ∧
      (⟨toString now, caller.id, trim s, false⟩ : Task) ∈ listed) ∧
    putTodo caller (toString now) .undefined (.bool true)
        (todos ++ [⟨toString now, caller.id, trim s, false⟩]) =
      (⟨200, .todo ⟨toString now, caller.id, trim s, true⟩⟩,
        todos ++ [⟨toString now, caller.id, trim s, true⟩]) ∧
    (∃ listed, (getTodos caller (todos ++ [⟨toString now, caller.id, trim s, true⟩])).1 =
        ⟨200, .todos listed⟩ ∧
      (⟨toString now, caller.id, trim s, true⟩ : Task) ∈ listed ∧
      (⟨toString now, caller.id, trim s, true⟩ : Task) ∈ todosToRender "completed" listed ∧
      (⟨toString now, caller.id, trim s, true⟩ : Task) ∉ todosToRender "active" listed) := by
  have hs0 : s ≠ "" := by
    rintro rfl
    exact hs trim_empty
  refine ⟨by simp [postTodos, hs, hs0], ⟨_, rfl, by simp⟩, ?_, ⟨_, rfl, by simp, ?_, ?_⟩⟩
  · exact putTodo_appended caller ⟨toString now, caller.id, trim s, false⟩ todos rfl hfresh
  · simp [todosToRender]
  · simp [todosToRender]

theorem splitChars_append_sep (sep : Char) (a b : List Char) (h : sep ∉ a) :
    splitChars sep (a ++ sep :: b) = a :: splitChars sep b := by
  induction a with
  | nil => simp [splitChars]
  | cons c cs ih =>
    have hc : c ≠ sep := fun e => h (by simp [e])
    have hcs : sep ∉ cs := fun e => h (by simp [e])
    simp [splitChars, hc, ih hcs]

/-- The second element of the split header is the token, whatever the first
element is. -/
theorem extractToken_scheme (scheme token : String)
    (hs : ' ' ∉ scheme.data) (ht : ' ' ∉ token.data) :
    extractToken (some (scheme ++ " " ++ token)) = some token := by
  have hdata : (scheme ++ " " ++ token).data = scheme.data ++ ' ' :: token.data := by
    simp [String.data_append]
  have hne : (scheme ++ " " ++ token) ≠ "" := by
    intro e
    have := congrArg String.data e
    rw [hdata] at this
    simp at this
  simp [extractToken, hne, splitSpace, hdata, splitChars_append_sep _ _ _ hs,
    splitChars_no_sep _ _ ht]

/-- A header without a space has no second element. -/
theorem splitSpace_no_space (h : String) (hsp : ' ' ∉ h.data) :
    (splitSpace h)[1]? = none := by
  simp [splitSpace, splitChars_no_sep _ _ hsp]

/-- The token expression when the header is present: the empty header is its
own (empty) value, any other header yields the second element of the split. -/
theorem extractToken_some (h : String) :
    (h = "" ∧ extractToken (some h) = some "" ∧ (splitSpace h)[1]? = none) ∨
    (h ≠ "" ∧ extractToken (some h) = (splitSpace h)[1]?) := by
  by_cases he : h = ""
  · subst he
    exact Or.inl ⟨rfl, by decide, by decide⟩
  · exact Or.inr ⟨he, by simp [extractToken, he]⟩

/-! ## Claims -/

/-- C1: when no stored task has both the id and the caller's userId (a task
with that id owned by someone else included), `PUT /todos/:id` with a body that
has a string `text` or a boolean `completed`, and `DELETE /todos/:id`, both
answer 404 "Todo not found" and leave the store as it was; the response is the
one given when no task has the id at all. -/
theorem cross_owner_isolation (caller : Claims) (id : String) (text completed : JsVal)
    (todos : List Task)
    (hvalid : text.isString = true ∨ completed.isBoolean = true)
    (hnone : ∀ t ∈ todos, ¬(t.id = id ∧ t.userId = caller.id)) :
    putTodo caller id text completed todos = (⟨404, .message "Todo not found"⟩, todos) ∧
    deleteTodo caller id todos = (⟨404, .message "Todo not found"⟩, todos) ∧
    ∀ absent : List Task, (∀ t ∈ absent, t.id ≠ id) →
      (putTodo caller id text completed absent).1 =
        (putTodo caller id text completed todos).1 ∧
      (deleteTodo caller id absent).1 = (deleteTodo caller id todos).1 := by
  refine ⟨putTodo_not_owned caller id text completed todos hvalid hnone,
    deleteTodo_not_owned caller id todos hnone, ?_⟩
  intro absent habs
  have hnone2 : ∀ t ∈ absent, ¬(t.id = id ∧ t.userId = caller.id) :=
    fun t ht hc => habs t ht hc.1
  rw [putTodo_not_owned caller id text completed todos hvalid hnone,
    putTodo_not_owned caller id text completed absent hvalid hnone2,
    deleteTodo_not_owned caller id todos hnone,
    deleteTodo_not_owned caller id absent hnone2]
  exact ⟨rfl, rfl⟩

/-- Witness for C1: user "b" acts on id "1", which belongs to user "a". -/
theorem cross_owner_isolation_witness :
    putTodo ⟨"b", .str "bob"⟩ "1" (.str "z") (.bool true) [⟨"1", "a", "x", false⟩] =
      (⟨404, .message "Todo not found"⟩, [⟨"1", "a", "x", false⟩]) ∧
    deleteTodo ⟨"b", .str "bob"⟩ "1" [⟨"1", "a", "x", false⟩] =
      (⟨404, .message "Todo not found"⟩, [⟨"1", "a", "x", false⟩]) :=
  have h := cross_owner_isolation ⟨"b", .str "bob"⟩ "1" (.str "z") (.bool true)
    [⟨"1", "a", "x", false⟩] (by decide) (by decide)
  ⟨h.1, h.2.1⟩

/-- C2: `GET /todos` answers 200 with a list that is a sub-sequence of the
store, holds only tasks of the caller and holds every task of the caller as
often as the store does (so it is the store filtered by owner, in store order);
the store is unchanged. -/
theorem getTodos_lists_callers_tasks (caller : Claims) (todos : List Task) :
    ∃ listed : List Task,
      getTodos caller todos = (⟨200, .todos listed⟩, todos) ∧
      listed = todos.filter (fun t => decide (t.userId = caller.id)) ∧
      listed.Sublist todos ∧
      (∀ t ∈ listed, t.userId = caller.id) ∧
      (∀ t ∈ todos, t.userId ≠ caller.id → t ∉ listed) ∧
      (∀ t, t.userId = caller.id → listed.count t = todos.count t) := by
  refine ⟨todos.filter (fun todo => todo.userId == caller.id), rfl, ?_,
    List.filter_sublist _, ?_, ?_, ?_⟩
  · apply List.filter_congr
    intro t _
    rfl
  · intro t ht
    simpa using (List.mem_filter.mp ht).2
  · intro t _ hne ht
    exact hne (by simpa using (List.mem_filter.mp ht).2)
  · intro t ht
    exact List.count_filter (by simpa using ht)

/-- C9: `DELETE /todos/:id` answers 204 exactly when some stored task has the
id and the caller's userId; then the new store is the old one without the tasks
matching both (all others kept, in order); otherwise it answers 404 and the
store is unchanged. -/
theorem deleteTodo_spec (caller : Claims) (id : String) (todos : List Task) :
    ((deleteTodo caller id todos).1.status = 204 ↔
        ∃ t ∈ todos, t.id = id ∧ t.userId = caller.id) ∧
    ((∃ t ∈ todos, t.id = id ∧ t.userId = caller.id) →
        deleteTodo caller id todos =
          (⟨204, .empty⟩,
            todos.filter (fun t => decide (¬(t.id = id ∧ t.userId = caller.id)))) ∧
        (deleteTodo caller id todos).2.Sublist todos ∧
        (∀ t, ¬(t.id = id ∧ t.userId = caller.id) →
          (deleteTodo caller id todos).2.count t = todos.count t)) ∧
    ((¬∃ t ∈ todos, t.id = id ∧ t.userId = caller.id) →
        deleteTodo caller id todos = (⟨404, .message "Todo not found"⟩, todos)) := by
  have hfilter : todos.filter (fun todo => !owns caller id todo) =
      todos.filter (fun t => decide (¬(t.id = id ∧ t.userId = caller.id))) := by
    apply List.filter_congr
    intro t _
    by_cases h1 : t.id = id <;> by_cases h2 : t.userId = caller.id <;> simp [owns, h1, h2]
  have h404 : (¬∃ t ∈ todos, t.id = id ∧ t.userId = caller.id) →
      deleteTodo caller id todos = (⟨404, .message "Todo not found"⟩, todos) := by
    intro hno
    exact deleteTodo_not_owned caller id todos (fun t ht hc => hno ⟨t, ht, hc⟩)
  refine ⟨?_, ?_, h404⟩
  · constructor
    · intro hst
      by_contra hno
      rw [h404 hno] at hst
      simp at hst
    · intro hex
      rw [deleteTodo_owned caller id todos hex]
  · intro hex
    rw [deleteTodo_owned caller id todos hex]
    refine ⟨by rw [hfilter], List.filter_sublist _, ?_⟩
    intro t ht
    apply List.count_filter
    rw [← owns_iff] at ht
    simpa using ht

/-- C3: `DELETE /todos/completed`. With N the number of completed tasks of the
caller: if N = 0 it answers 204 and the store is unchanged; if N > 0 it answers
200 with deletedCount N, and the new store is the old one without exactly the
caller's completed tasks: a sub-sequence of the old store, shorter by N, in
which every task of another user and every active task of the caller occurs as
often as before. -/
theorem deleteCompleted_spec (caller : Claims) (todos : List Task) :
    (todos.countP (fun t => decide (t.userId = caller.id ∧ t.completed = true)) = 0 →
      deleteCompleted caller todos = (⟨204, .empty⟩, todos)) ∧
    (0 < todos.countP (fun t => decide (t.userId = caller.id ∧ t.completed = true)) →
      ∃ (message : String) (remaining : List Task),
        deleteCompleted caller todos =
          (⟨200, .deleted message
            (todos.countP (fun t => decide (t.userId = caller.id ∧ t.completed = true)))⟩,
            remaining) ∧
        remaining =
          todos.filter (fun t => decide (¬(t.userId = caller.id ∧ t.completed = true))) ∧
        remaining.Sublist todos ∧
        remaining.length +
          todos.countP (fun t => decide (t.userId = caller.id ∧ t.completed = true)) =
            todos.length ∧
        (∀ t, t.userId ≠ caller.id → remaining.count t = todos.count t) ∧
        (∀ t, t.userId = caller.id → t.completed = false →
          remaining.count t = todos.count t) ∧
        (∀ t ∈ remaining, ¬(t.userId = caller.id ∧ t.completed = true))) := by
  have hcount :
      ((todos.filter (fun todo => todo.userId == caller.id)).filter
        (fun todo => todo.completed)).length =
      todos.countP (fun t => decide (t.userId = caller.id ∧ t.completed = true)) := by
    rw [List.filter_filter, List.countP_eq_length_filter]
    congr 1
    apply List.filter_congr
    intro t _
    by_cases h1 : t.userId = caller.id <;> cases h2 : t.completed <;> simp [h1, h2]
  have hrem : todos.filter (fun todo => todo.userId != caller.id || !todo.completed) =
      todos.filter (fun t => decide (¬(t.userId = caller.id ∧ t.completed = true))) := by
    apply List.filter_congr
    intro t _
    by_cases h1 : t.userId = caller.id <;> cases h2 : t.completed <;> simp [h1, h2]
  constructor
  · intro hzero
    unfold deleteCompleted
    simp only [hcount, hzero]
    rfl
  · intro hpos
    have hne : (todos.countP
        (fun t => decide (t.userId = caller.id ∧ t.completed = true)) == 0) = false := by
      simpa using Nat.pos_iff_ne_zero.mp hpos
    refine ⟨"Deleted " ++ toString (todos.countP
        (fun t => decide (t.userId = caller.id ∧ t.completed = true))) ++ " completed todos.",
      todos.filter (fun t => decide (¬(t.userId = caller.id ∧ t.completed = true))),
      ?_, rfl, List.filter_sublist _, ?_, ?_, ?_, ?_⟩
    · unfold deleteCompleted
      simp only [hcount, hne, hrem]
      rfl
    · have := List.length_eq_countP_add_countP
        (fun t : Task => decide (t.userId = caller.id ∧ t.completed = true)) todos
      rw [List.countP_eq_length_filter
        (fun t : Task => decide (t.userId = caller.id ∧ t.completed = true)),
        List.countP_eq_length_filter] at this
      rw [List.countP_eq_length_filter, this, Nat.add_comm]
      congr 2
      apply List.filter_congr
      intro t _
      simp
    · intro t ht
      exact List.count_filter (by simp [ht])
    · intro t h1 h2
      exact List.count_filter (by simp [h2])
    · intro t ht
      exact of_decide_eq_true (List.mem_filter.mp ht).2

/-- C5: `PUT /todos/:id` with a string `text` that is empty after trimming (the
empty string included), on an id the caller owns, answers 200 and rewrites only
the first task with that id and owner: its text (and id, userId) stay as
stored, and its `completed` becomes the boolean of the body when there is one;
without a boolean `completed` the store is unchanged. -/
theorem putTodo_empty_text_ignored (caller : Claims) (id : String) (s : String)
    (completed : JsVal) (todos : List Task)
    (hempty : trim s = "")
    (howned : ∃ t ∈ todos, t.id = id ∧ t.userId = caller.id) :
    ∃ (i : Nat) (target updated : Task),
      todos.findIdx? (owns caller id) = some i ∧
      todos[i]? = some target ∧
      putTodo caller id (.str s) completed todos =
        (⟨200, .todo updated⟩, todos.set i updated) ∧
      updated.text = target.text ∧
      updated.id = target.id ∧ updated.userId = target.userId ∧
      (∀ b, completed = .bool b → updated.completed = b) ∧
      (completed.isBoolean = false →
        updated = target ∧
        (putTodo caller id (.str s) completed todos).2 = todos) := by
  obtain ⟨i, target, hfind, hget, _, hput⟩ :=
    putTodo_owned caller id (.str s) completed todos (Or.inl rfl) howned
  refine ⟨i, target, applyUpdate (.str s) completed target, hfind, hget, hput, ?_, ?_, ?_, ?_, ?_⟩
  · cases completed <;> simp [applyUpdate, hempty]
  · cases completed <;> simp [applyUpdate, hempty]
  · cases completed <;> simp [applyUpdate, hempty]
  · intro b hb
    subst hb
    simp [applyUpdate]
  · intro hnb
    have hupd : applyUpdate (.str s) completed target = target := by
      cases completed <;> simp_all [applyUpdate, JsVal.isBoolean]
    refine ⟨hupd, ?_⟩
    rw [hput, hupd]
    exact set_same todos i target hget

/-- Witness for C5: text "   " and completed true on the caller's own task. -/
theorem putTodo_empty_text_ignored_witness :
    ∃ (i : Nat) (target updated : Task),
      [(⟨"1", "a", "x", false⟩ : Task)].findIdx? (owns ⟨"a", .str "alice"⟩ "1") = some i ∧
      [(⟨"1", "a", "x", false⟩ : Task)][i]? = some target ∧
      putTodo ⟨"a", .str "alice"⟩ "1" (.str "   ") (.bool true) [⟨"1", "a", "x", false⟩] =
        (⟨200, .todo updated⟩, [(⟨"1", "a", "x", false⟩ : Task)].set i updated) ∧
      updated.text = target.text ∧
      updated.id = target.id ∧ updated.userId = target.userId ∧
      (∀ b, JsVal.bool true = .bool b → updated.completed = b) ∧
      ((JsVal.bool true).isBoolean = false →
        updated = target ∧
        (putTodo ⟨"a", .str "alice"⟩ "1" (.str "   ") (.bool true)
          [⟨"1", "a", "x", false⟩]).2 = [⟨"1", "a", "x", false⟩]) :=
  putTodo_empty_text_ignored ⟨"a", .str "alice"⟩ "1" "   " (.bool true)
    [⟨"1", "a", "x", false⟩] (by decide) ⟨⟨"1", "a", "x", false⟩, by simp, by decide⟩

/-- C6: on each of the five `/todos*` routes, a request without Authorization
header is answered 401, and a request whose token (the one the middleware
extracts, in particular the token of a `Bearer <token>` header) is rejected by
token verification is answered 403; in both cases the answer is the
middleware's fixed message, whatever the store holds, and the store is left as
it was: the route handler is not run. -/
theorem auth_gate (jwt : Jwt) (now : Nat) (req : TodoRequest) (todos : List Task) :
    handleTodoRequest jwt now none req todos =
      (⟨401, .message "Authentication required"⟩, todos) ∧
    (∀ header token : String, extractToken (some header) = some token → token ≠ "" →
      jwt.verify token now = none →
      handleTodoRequest jwt now (some header) req todos =
        (⟨403, .message "Invalid or expired token"⟩, todos)) ∧
    (∀ token : String, token ≠ "" → ' ' ∉ token.data → jwt.verify token now = none →
      handleTodoRequest jwt now (some ("Bearer " ++ token)) req todos =
        (⟨403, .message "Invalid or expired token"⟩, todos)) := by
  have h403 : ∀ header token : String, extractToken (some header) = some token →
      token ≠ "" → jwt.verify token now = none →
      handleTodoRequest jwt now (some header) req todos =
        (⟨403, .message "Invalid or expired token"⟩, todos) := by
    intro header token hext hne hver
    simp [handleTodoRequest, authenticateToken, hext, hne, hver]
  refine ⟨rfl, h403, ?_⟩
  intro token hne hsp hver
  exact h403 _ token (extractToken_bearer token hsp) hne hver

/-- C7: `POST /todos` answers 400 and leaves the store unchanged when `text` is
missing, not a string, or a string that is empty after trimming; otherwise it
answers 201 with the created task and appends exactly that task at the end of
the store: its userId is the caller's id, its text the trimmed input, its
completed flag false (and its id the decimal clock reading). -/
theorem postTodos_spec (now : Nat) (caller : Claims) (text : JsVal) (todos : List Task) :
    ((text.isString = false ∨ ∃ s, text = .str s ∧ trim s = "") →
      postTodos now caller text todos = (⟨400, .message "Invalid todo text"⟩, todos)) ∧
    (∀ s, text = .str s → trim s ≠ "" →
      ∃ created : Task,
        postTodos now caller text todos = (⟨201, .todo created⟩, todos ++ [created]) ∧
        created.userId = caller.id ∧ created.text = trim s ∧
        created.completed = false ∧ created.id = toString now) := by
  constructor
  · rintro (hns | ⟨s, rfl, hs⟩)
    · cases text <;> simp_all [postTodos, JsVal.isString]
    · simp [postTodos, hs]
  · rintro s rfl hs
    have hs0 : s ≠ "" := by
      rintro rfl
      exact hs trim_empty
    exact ⟨⟨toString now, caller.id, trim s, false⟩, by simp [postTodos, hs, hs0],
      rfl, rfl, rfl, rfl⟩

/-- C8: status of `PUT /todos/:id`. It is 400 exactly when `text` is not a
string and `completed` is not a boolean, whatever the store holds; otherwise it
is 404 exactly when no stored task has the id and the caller's userId;
otherwise it is 200 and the body is the task found (the first such task) as it
stands in the store after the update. -/
theorem putTodo_status (caller : Claims) (id : String) (text completed : JsVal)
    (todos : List Task) :
    ((putTodo caller id text completed todos).1.status = 400 ↔
      (text.isString = false ∧ completed.isBoolean = false)) ∧
    (¬(text.isString = false ∧ completed.isBoolean = false) →
      ((putTodo caller id text completed todos).1.status = 404 ↔
        ¬∃ t ∈ todos, t.id = id ∧ t.userId = caller.id)) ∧
    (¬(text.isString = false ∧ completed.isBoolean = false) →
      (∃ t ∈ todos, t.id = id ∧ t.userId = caller.id) →
      ∃ (i : Nat) (stored : Task),
        todos.findIdx? (owns caller id) = some i ∧
        (putTodo caller id text completed todos).2[i]? = some stored ∧
        (putTodo caller id text completed todos).1 = ⟨200, .todo stored⟩) := by
  by_cases hinv : text.isString = false ∧ completed.isBoolean = false
  · refine ⟨⟨fun _ => hinv, fun _ => ?_⟩, fun h => absurd hinv h, fun h => absurd hinv h⟩
    simp [putTodo, hinv.1, hinv.2]
  · have hvalid : text.isString = true ∨ completed.isBoolean = true := by
      by_cases h1 : text.isString = true
      · exact Or.inl h1
      · by_cases h2 : completed.isBoolean = true
        · exact Or.inr h2
        · exact absurd ⟨by simpa using h1, by simpa using h2⟩ hinv
    by_cases hex : ∃ t ∈ todos, t.id = id ∧ t.userId = caller.id
    · obtain ⟨i, target, hfind, hget, _, hput⟩ :=
        putTodo_owned caller id text completed todos hvalid hex
      have hlt : i < todos.length := by
        by_contra hge
        rw [List.getElem?_eq_none (Nat.le_of_not_lt hge)] at hget
        cases hget
      refine ⟨⟨fun hst => ?_, fun h => absurd h hinv⟩, fun _ => ⟨fun hst => ?_, fun h => absurd hex h⟩,
        fun _ _ => ⟨i, applyUpdate text completed target, hfind, ?_, ?_⟩⟩
      · rw [hput] at hst
        simp at hst
      · rw [hput] at hst
        simp at hst
      · rw [hput]
        simp [hlt]
      · rw [hput]
    · have hput := putTodo_not_owned caller id text completed todos hvalid
        (fun t ht hc => hex ⟨t, ht, hc⟩)
      refine ⟨⟨fun hst => ?_, fun h => absurd h hinv⟩, fun _ => ⟨fun _ => hex, fun _ => ?_⟩,
        fun _ h => absurd h hex⟩
      · rw [hput] at hst
        simp at hst
      · rw [hput]

/-- C4, as stated, fails for the empty username: the collection `[]` does not
contain it and the password is non-empty, yet the first registration answers
400 ("Username and password are required"), not 201, and stores nothing. -/
theorem register_empty_username_rejected :
    (∀ x ∈ ([] : List User), x.username ≠ .str "") ∧ "pw1" ≠ "" ∧
    (register plainBcrypt plainJwt 1 "salt" (.str "") (.str "pw1") []).1.status = 400 ∧
    (register plainBcrypt plainJwt 1 "salt" (.str "") (.str "pw1") []).1.status ≠ 201 ∧
    (register plainBcrypt plainJwt 1 "salt" (.str "") (.str "pw1") []).2 = [] := by
  decide

/-- C4 (amended): for a non-empty username u that the collection does not
contain and a non-empty password, the first `POST /auth/register` answers 201;
a second registration of u on the resulting collection, with any password
field, clock reading and salt, answers 400 and leaves the collection unchanged;
the resulting collection holds exactly one record whose username is u. -/
theorem register_twice (bc : Bcrypt) (jwt : Jwt) (now : Nat) (salt u p1 : String)
    (users : List User) (hu : u ≠ "") (hp1 : p1 ≠ "")
    (hfresh : ∀ x ∈ users, x.username ≠ .str u) :
    (register bc jwt now salt (.str u) (.str p1) users).1.status = 201 ∧
    ∀ (now2 : Nat) (salt2 : String) (password2 : JsVal),
      (register bc jwt now2 salt2 (.str u) password2
        (register bc jwt now salt (.str u) (.str p1) users).2).1.status = 400 ∧
      (register bc jwt now2 salt2 (.str u) password2
        (register bc jwt now salt (.str u) (.str p1) users).2).2 =
        (register bc jwt now salt (.str u) (.str p1) users).2 ∧
      ((register bc jwt now2 salt2 (.str u) password2
        (register bc jwt now salt (.str u) (.str p1) users).2).2.countP
          (fun x => decide (x.username = .str u))) = 1 := by
  rw [register_fresh bc jwt now salt u p1 users hu hp1 hfresh]
  refine ⟨rfl, ?_⟩
  intro now2 salt2 password2
  have htaken : ∃ x ∈ users ++ [(⟨toString now, .str u, bc.hash p1 salt⟩ : User)],
      x.username = .str u := ⟨⟨toString now, .str u, bc.hash p1 salt⟩, by simp, rfl⟩
  obtain ⟨h400, hsame⟩ := register_taken bc jwt now2 salt2 u password2 _ htaken
  refine ⟨h400, hsame, ?_⟩
  simp only [hsame]
  have hzero : users.countP (fun x => decide (x.username = .str u)) = 0 := by
    rw [List.countP_eq_zero]
    intro x hx
    simpa using hfresh x hx
  simp [List.countP_append, hzero, List.countP_cons]

/-- Witness for C4 (amended): "alice" registers twice on the empty collection. -/
theorem register_twice_witness :
    (register plainBcrypt plainJwt 1 "s" (.str "alice") (.str "pw1") []).1.status = 201 ∧
    (register plainBcrypt plainJwt 2 "t" (.str "alice") (.str "pw2")
      (register plainBcrypt plainJwt 1 "s" (.str "alice") (.str "pw1") []).2).1.status = 400 :=
  have h := register_twice plainBcrypt plainJwt 1 "s" "alice" "pw1" []
    (by decide) (by decide) (by simp)
  ⟨h.1, (h.2 2 "t" (.str "pw2")).1⟩

/-- C10, as stated, fails in two places. With "alice"/"pw1" registered on the
empty collection, a login with the empty password, which does not verify
against the stored hash, is answered 400, not 401. And for the empty username,
which the empty collection does not contain, registration is answered 400, not
201. The password check used satisfies `compare p (hash p salt)`. -/
theorem login_empty_password_is_400 :
    (∀ p salt, plainBcrypt.compare p (plainBcrypt.hash p salt) = true) ∧
    (register plainBcrypt plainJwt 1 "s" (.str "alice") (.str "pw1") []).1.status = 201 ∧
    plainBcrypt.compare "" (plainBcrypt.hash "pw1" "s") = false ∧
    (login plainBcrypt plainJwt 2 (.str "alice") (.str "")
      (register plainBcrypt plainJwt 1 "s" (.str "alice") (.str "pw1") []).2).1.status = 400 ∧
    (login plainBcrypt plainJwt 2 (.str "alice") (.str "")
      (register plainBcrypt plainJwt 1 "s" (.str "alice") (.str "pw1") []).2).1.status ≠ 401 ∧
    (register plainBcrypt plainJwt 1 "s" (.str "") (.str "pw1") []).1.status ≠ 201 := by
  refine ⟨?_, by decide, by decide, by decide, by decide, by decide⟩
  intro p salt
  simp [plainBcrypt]

/-- C10 (amended): assuming `compare p (hash p salt)` holds, for a non-empty
username u that the collection does not contain and a non-empty password p,
`POST /auth/register` answers 201 with a token and the user; a later login with
u and a non-empty password that does not verify against the stored hash answers
401; a later login with u and p answers 200 with a token and the user (id and
username) that the registration returned; neither login changes the
collection. -/
theorem register_then_login (bc : Bcrypt) (jwt : Jwt) (now now1 now2 : Nat)
    (salt u p wrong : String) (users : List User)
    (hverify : ∀ q s, bc.compare q (bc.hash q s) = true)
    (hu : u ≠ "") (hp : p ≠ "")
    (hfresh : ∀ x ∈ users, x.username ≠ .str u)
    (hw : wrong ≠ "") (hwrong : bc.compare wrong (bc.hash p salt) = false) :
    ∃ (token : String) (user : Claims) (users1 : List User),
      register bc jwt now salt (.str u) (.str p) users =
        (⟨201, .auth "User registered successfully" token user⟩, users1) ∧
      login bc jwt now1 (.str u) (.str wrong) users1 =
        (⟨401, .message "Invalid username or password"⟩, users1) ∧
      ∃ token2 : String,
        login bc jwt now2 (.str u) (.str p) users1 =
          (⟨200, .auth "Login successful" token2 user⟩, users1) := by
  refine ⟨jwt.sign ⟨toString now, .str u⟩ now, ⟨toString now, .str u⟩,
    users ++ [⟨toString now, .str u, bc.hash p salt⟩],
    register_fresh bc jwt now salt u p users hu hp hfresh, ?_,
    jwt.sign ⟨toString now, .str u⟩ now2, ?_⟩
  · simp [login, JsVal.truthy, hu, hw,
      find_appended users u ⟨toString now, .str u, bc.hash p salt⟩ hfresh rfl, hwrong]
  · simp [login, JsVal.truthy, hu, hp,
      find_appended users u ⟨toString now, .str u, bc.hash p salt⟩ hfresh rfl, hverify]

/-- Witness for C10 (amended): register "alice"/"pw1", login with "wrong", then
with "pw1". -/
theorem register_then_login_witness :
    ∃ (token : String) (user : Claims) (users1 : List User),
      register plainBcrypt plainJwt 1 "s" (.str "alice") (.str "pw1") [] =
        (⟨201, .auth "User registered successfully" token user⟩, users1) ∧
      login plainBcrypt plainJwt 2 (.str "alice") (.str "wrong") users1 =
        (⟨401, .message "Invalid username or password"⟩, users1) ∧
      ∃ token2 : String,
        login plainBcrypt plainJwt 3 (.str "alice") (.str "pw1") users1 =
          (⟨200, .auth "Login successful" token2 user⟩, users1) :=
  register_then_login plainBcrypt plainJwt 1 2 3 "s" "alice" "pw1" "wrong" []
    (by intro q s; simp [plainBcrypt]) (by decide) (by decide) (by simp) (by decide)
    (by decide)

/-- C11: "every stored task has a text that is non-empty and equal to its own
trim" holds for the empty store and is preserved by every request to
`POST /todos`, `PUT /todos/:id`, `DELETE /todos/:id` and
`DELETE /todos/completed` (and `GET /todos`), for every caller and request
body, whether the handler is run directly or behind the middleware. -/
theorem texts_never_persisted_empty :
    textsTrimmed [] ∧
    (∀ (now : Nat) (caller : Claims) (req : TodoRequest) (todos : List Task),
      textsTrimmed todos → textsTrimmed (runHandler now caller req todos).2) ∧
    (∀ (jwt : Jwt) (now : Nat) (authHeader : Option String) (req : TodoRequest)
        (todos : List Task),
      textsTrimmed todos →
        textsTrimmed (handleTodoRequest jwt now authHeader req todos).2) := by
  refine ⟨?_, textsTrimmed_runHandler, ?_⟩
  · intro t ht
    cases ht
  · intro jwt now authHeader req todos h
    unfold handleTodoRequest
    split
    · exact h
    · exact textsTrimmed_runHandler now _ req todos h

/-- C12: two `POST /todos` requests handled at the same clock reading. Both
succeed (201) and both tasks receive the id "1700000000000": starting from the
empty store, whose ids are distinct, the store reached holds two tasks with the
same id. -/
theorem same_clock_reading_duplicates_id :
    idsUnique [] ∧
    (postTodos 1700000000000 ⟨"a", .str "alice"⟩ (.str "first") []).1.status = 201 ∧
    idsUnique (postTodos 1700000000000 ⟨"a", .str "alice"⟩ (.str "first") []).2 ∧
    (postTodos 1700000000000 ⟨"a", .str "alice"⟩ (.str "buy milk")
      (postTodos 1700000000000 ⟨"a", .str "alice"⟩ (.str "first") []).2).1.status = 201 ∧
    (postTodos 1700000000000 ⟨"a", .str "alice"⟩ (.str "buy milk")
      (postTodos 1700000000000 ⟨"a", .str "alice"⟩ (.str "first") []).2).2 =
      [⟨"1700000000000", "a", "first", false⟩, ⟨"1700000000000", "a", "buy milk", false⟩] ∧
    ¬idsUnique (postTodos 1700000000000 ⟨"a", .str "alice"⟩ (.str "buy milk")
      (postTodos 1700000000000 ⟨"a", .str "alice"⟩ (.str "first") []).2).2 := by
  decide

/-- C13: the round trip on a store that already holds a task of the caller
with the id the new task receives (two posts at the same clock reading). The
task "buy milk" is created (201) and listed with `completed` false; `PUT` with
`{completed: true}` on its id answers 200 but updates the earlier task "first";
the next listing still holds "buy milk" with `completed` false, the "completed"
filter shows only "first" and the "active" filter shows "buy milk". -/
theorem round_trip_breaks_on_id_collision :
    postTodos 1700000000000 ⟨"a", .str "alice"⟩ (.str "buy milk")
        [⟨"1700000000000", "a", "first", false⟩] =
      (⟨201, .todo ⟨"1700000000000", "a", "buy milk", false⟩⟩,
        [⟨"1700000000000", "a", "first", false⟩,
         ⟨"1700000000000", "a", "buy milk", false⟩]) ∧
    putTodo ⟨"a", .str "alice"⟩ "1700000000000" .undefined (.bool true)
        [⟨"1700000000000", "a", "first", false⟩,
         ⟨"1700000000000", "a", "buy milk", false⟩] =
      (⟨200, .todo ⟨"1700000000000", "a", "first", true⟩⟩,
        [⟨"1700000000000", "a", "first", true⟩,
         ⟨"1700000000000", "a", "buy milk", false⟩]) ∧
    getTodos ⟨"a", .str "alice"⟩
        [⟨"1700000000000", "a", "first", true⟩,
         ⟨"1700000000000", "a", "buy milk", false⟩] =
      (⟨200, .todos [⟨"1700000000000", "a", "first", true⟩,
          ⟨"1700000000000", "a", "buy milk", false⟩]⟩,
        [⟨"1700000000000", "a", "first", true⟩,
         ⟨"1700000000000", "a", "buy milk", false⟩]) ∧
    todosToRender "completed"
        [⟨"1700000000000", "a", "first", true⟩,
         ⟨"1700000000000", "a", "buy milk", false⟩] =
      [⟨"1700000000000", "a", "first", true⟩] ∧
    todosToRender "active"
        [⟨"1700000000000", "a", "first", true⟩,
         ⟨"1700000000000", "a", "buy milk", false⟩] =
      [⟨"1700000000000", "a", "buy milk", false⟩] := by
  decide

/-- C14: frame of `PUT /todos/:id`. When it answers 200 the new store is the old
one with a single position rewritten, the position of the first task with the
id and the caller's userId: same length, every other position unchanged, and
at that position id and userId are as before, the text is as before or the
non-empty trim of the string `text` of the body, and `completed` is as before
or the boolean `completed` of the body. -/
theorem putTodo_frame (caller : Claims) (id : String) (text completed : JsVal)
    (todos : List Task)
    (h200 : (putTodo caller id text completed todos).1.status = 200) :
    ∃ (i : Nat) (target updated : Task),
      todos[i]? = some target ∧
      (target.id = id ∧ target.userId = caller.id) ∧
      (∀ (j : Nat) (t : Task), j < i → todos[j]? = some t →
        ¬(t.id = id ∧ t.userId = caller.id)) ∧
      (putTodo caller id text completed todos).2 = todos.set i updated ∧
      (putTodo caller id text completed todos).2.length = todos.length ∧
      (putTodo caller id text completed todos).2[i]? = some updated ∧
      (∀ j : Nat, j ≠ i → (putTodo caller id text completed todos).2[j]? = todos[j]?) ∧
      updated.id = target.id ∧ updated.userId = target.userId ∧
      (updated.text = target.text ∨
        ∃ s, text = .str s ∧ trim s ≠ "" ∧ updated.text = trim s) ∧
      (updated.completed = target.completed ∨ completed = .bool updated.completed) := by
  rcases putTodo_cases caller id text completed todos with
    ⟨_, hput⟩ | hput | ⟨i, target, hfind, hget, hown, hput⟩
  · rw [hput] at h200
    simp at h200
  · rw [hput] at h200
    simp at h200
  · obtain ⟨hlt, _, hfirst⟩ := List.findIdx?_eq_some_iff_getElem.mp hfind
    obtain ⟨hid, huid, htext, hcompleted⟩ := applyUpdate_frame text completed target
    refine ⟨i, target, applyUpdate text completed target, hget, hown, ?_, ?_, ?_, ?_, ?_,
      hid, huid, htext, hcompleted⟩
    · intro j t hj hjt hc
      have hjlt : j < todos.length := Nat.lt_trans hj hlt
      have ht : todos[j] = t := by
        rw [List.getElem?_eq_getElem hjlt] at hjt
        exact Option.some.inj hjt
      have := hfirst j hj
      rw [ht] at this
      exact this ((owns_iff caller id t).mpr hc)
    · rw [hput]
    · rw [hput]
      simp
    · rw [hput]
      simp [hlt]
    · intro j hj
      rw [hput]
      exact List.getElem?_set_ne (Ne.symm hj)

/-- Witness for C14: the caller renames and completes the second of three
tasks. -/
theorem putTodo_frame_witness :
    (putTodo ⟨"a", .str "alice"⟩ "2" (.str " tea ") (.bool true)
      [⟨"1", "a", "x", false⟩, ⟨"2", "a", "y", false⟩, ⟨"2", "b", "z", false⟩]).1.status = 200 ∧
    ∃ (i : Nat) (target updated : Task),
      [(⟨"1", "a", "x", false⟩ : Task), ⟨"2", "a", "y", false⟩, ⟨"2", "b", "z", false⟩][i]? =
        some target ∧
      (putTodo ⟨"a", .str "alice"⟩ "2" (.str " tea ") (.bool true)
        [⟨"1", "a", "x", false⟩, ⟨"2", "a", "y", false⟩, ⟨"2", "b", "z", false⟩]).2 =
        [(⟨"1", "a", "x", false⟩ : Task), ⟨"2", "a", "y", false⟩,
          ⟨"2", "b", "z", false⟩].set i updated :=
  ⟨by decide,
    have ⟨i, target, updated, h1, _, _, h4, _⟩ :=
      putTodo_frame ⟨"a", .str "alice"⟩ "2" (.str " tea ") (.bool true)
        [⟨"1", "a", "x", false⟩, ⟨"2", "a", "y", false⟩, ⟨"2", "b", "z", false⟩] (by decide)
    ⟨i, target, updated, h1, h4⟩⟩

/-- C15: page load with a token stored and no `user` entry. The comment above
`checkAuthStatus` reads "Check if user is logged in (token exists in
localStorage)", but the function tests `token && userJson`: with the token
"abc" alone it shows the auth forms (task list hidden, no fetch started)
instead of the Authenticated screen. -/
theorem stored_token_alone_shows_auth_forms :
    (⟨some "abc", none⟩ : LocalStorage).token = some "abc" ∧
    checkAuthStatus plainJsonParse ⟨some "abc", none⟩ = showAuthForms none ∧
    (checkAuthStatus plainJsonParse ⟨some "abc", none⟩).authHidden = false ∧
    (checkAuthStatus plainJsonParse ⟨some "abc", none⟩).todoHidden = true := by
  decide

/-- Start-up with both entries stored: when local storage holds a non-empty
token and a non-empty `user` entry that `JSON.parse` accepts, `checkAuthStatus`
shows the Authenticated screen (auth forms hidden, task list visible, first
fetch started), and does so for every such token: the token is not verified.
When no token is stored it shows the Unauthenticated screen. -/
theorem checkAuthStatus_spec (jsonParse : String → Option JsVal)
    (token userJson : String) (user : JsVal)
    (htoken : token ≠ "") (huser : userJson ≠ "")
    (hparse : jsonParse userJson = some user) :
    checkAuthStatus jsonParse ⟨some token, some userJson⟩ = showTodoApp (some user) ∧
    (checkAuthStatus jsonParse ⟨some token, some userJson⟩).authHidden = true ∧
    (checkAuthStatus jsonParse ⟨some token, some userJson⟩).todoHidden = false ∧
    (∀ other : String, other ≠ "" →
      checkAuthStatus jsonParse ⟨some other, some userJson⟩ =
        checkAuthStatus jsonParse ⟨some token, some userJson⟩) ∧
    (∀ stored : Option String,
      checkAuthStatus jsonParse ⟨none, stored⟩ = showAuthForms none ∧
      (checkAuthStatus jsonParse ⟨none, stored⟩).authHidden = false ∧
      (checkAuthStatus jsonParse ⟨none, stored⟩).todoHidden = true) := by
  have hshow : ∀ t : String, t ≠ "" →
      checkAuthStatus jsonParse ⟨some t, some userJson⟩ = showTodoApp (some user) := by
    intro t ht
    simp [checkAuthStatus, ht, huser, hparse]
  refine ⟨hshow token htoken, ?_, ?_, ?_, ?_⟩
  · rw [hshow token htoken]; rfl
  · rw [hshow token htoken]; rfl
  · intro other hother
    rw [hshow token htoken, hshow other hother]
  · intro stored
    exact ⟨rfl, rfl, rfl⟩

/-- Start-up evaluated with a stored token "abc" and a stored user object. -/
theorem checkAuthStatus_spec_witness :
    checkAuthStatus plainJsonParse ⟨some "abc", some "\x7b\x7d"⟩ = showTodoApp (some .obj) ∧
    (checkAuthStatus plainJsonParse ⟨some "abc", some "\x7b\x7d"⟩).authHidden = true ∧
    (checkAuthStatus plainJsonParse ⟨some "abc", some "\x7b\x7d"⟩).todoHidden = false :=
  have h := checkAuthStatus_spec plainJsonParse "abc" "\x7b\x7d" .obj
    (by decide) (by decide) (by decide)
  ⟨h.1, h.2.1, h.2.2.1⟩

/-- C16: `authenticateToken` takes as token the second element of the header
split at single spaces, whatever the first element is. It answers 401 exactly
when the header is absent or that second element is absent or empty (so for a
header without a space, and for "Bearer " followed by nothing); otherwise token
verification alone decides: 403 when it fails, and when it succeeds the handler
runs with the verified payload as caller. -/
theorem authenticateToken_spec (jwt : Jwt) (now : Nat) (authHeader : Option String) :
    ((∃ res, authenticateToken jwt now authHeader = .error res ∧ res.status = 401) ↔
      (authHeader = none ∨ ∃ h, authHeader = some h ∧
        ((splitSpace h)[1]? = none ∨ (splitSpace h)[1]? = some ""))) ∧
    (∀ (h token : String), authHeader = some h → (splitSpace h)[1]? = some token →
      token ≠ "" →
      (jwt.verify token now = none →
        authenticateToken jwt now authHeader =
          .error ⟨403, .message "Invalid or expired token"⟩) ∧
      (∀ user, jwt.verify token now = some user →
        authenticateToken jwt now authHeader = .ok user ∧
        ∀ (req : TodoRequest) (todos : List Task),
          handleTodoRequest jwt now authHeader req todos =
            runHandler now user req todos)) ∧
    (∀ h : String, ' ' ∉ h.data →
      authenticateToken jwt now (some h) =
        .error ⟨401, .message "Authentication required"⟩) ∧
    authenticateToken jwt now (some "Bearer ") =
      .error ⟨401, .message "Authentication required"⟩ ∧
    (∀ scheme token : String, ' ' ∉ scheme.data → ' ' ∉ token.data →
      extractToken (some (scheme ++ " " ++ token)) = some token) := by
  refine ⟨?_, ?_, ?_, ?_, extractToken_scheme⟩
  · cases authHeader with
    | none => exact ⟨fun _ => Or.inl rfl, fun _ => ⟨_, rfl, rfl⟩⟩
    | some h =>
      rcases extractToken_some h with ⟨_, hext, hsplit⟩ | ⟨_, hext⟩
      · refine ⟨fun _ => Or.inr ⟨h, rfl, Or.inl hsplit⟩, fun _ =>
          ⟨⟨401, .message "Authentication required"⟩, ?_, rfl⟩⟩
        simp [authenticateToken, hext]
      · cases hsp : (splitSpace h)[1]? with
        | none =>
          refine ⟨fun _ => Or.inr ⟨h, rfl, Or.inl hsp⟩, fun _ =>
          ⟨⟨401, .message "Authentication required"⟩, ?_, rfl⟩⟩
          simp [authenticateToken, hext, hsp]
        | some token =>
          by_cases htok : token = ""
          · subst htok
            refine ⟨fun _ => Or.inr ⟨h, rfl, Or.inr hsp⟩, fun _ =>
          ⟨⟨401, .message "Authentication required"⟩, ?_, rfl⟩⟩
            simp [authenticateToken, hext, hsp]
          · constructor
            · rintro ⟨res, hres, hst⟩
              cases hver : jwt.verify token now with
              | none =>
                simp [authenticateToken, hext, hsp, htok, hver] at hres
                rw [← hres] at hst
                simp at hst
              | some user =>
                simp [authenticateToken, hext, hsp, htok, hver] at hres
            · rintro (hnone | ⟨h2, hh, hcase⟩)
              · cases hnone
              · cases hh
                rcases hcase with hc | hc
                · rw [hsp] at hc; cases hc
                · rw [hsp] at hc
                  exact absurd (Option.some.inj hc) htok
  · intro h token hh hsp htok
    subst hh
    have hext : extractToken (some h) = some token := by
      rcases extractToken_some h with ⟨_, _, hsplit⟩ | ⟨_, hext⟩
      · rw [hsp] at hsplit; cases hsplit
      · rw [hext, hsp]
    refine ⟨fun hver => by simp [authenticateToken, hext, htok, hver], fun user hver => ?_⟩
    have hok : authenticateToken jwt now (some h) = .ok user := by
      simp [authenticateToken, hext, htok, hver]
    exact ⟨hok, fun req todos => by simp [handleTodoRequest, hok]⟩
  · intro h hsp
    rcases extractToken_some h with ⟨_, hext, _⟩ | ⟨_, hext⟩
    · simp [authenticateToken, hext]
    · simp [authenticateToken, hext, splitSpace_no_space h hsp]
  · have hext : extractToken (some "Bearer ") = some "" := by decide
    simp [authenticateToken, hext]

end TodoApp
